import Mathlib

/-!
Verification of `scripts/data_validation.py` (marketing data-quality rule
engine).  The Python functions are shallowly embedded: records are ordered
association lists of column name to scalar value, numeric values are exact
rationals, dates are a year/month/day structure with the proleptic-Gregorian
day count used for date subtraction, and the ambient quantities the script
reads from its environment (the UTC run timestamp, the current UTC date, and the
result of loading the SQLite table) are explicit parameters.
-/

namespace DataValidation

/-- Scalar value stored in a record: the SQLite row values the script
consumes are NULL, TEXT, INTEGER or REAL.  Python floats are idealised as
exact rationals. -/
inductive Value where
  | null : Value
  | str : String → Value
  | int : Int → Value
  | float : ℚ → Value
deriving DecidableEq, Repr

/-- A record is an ordered mapping from column name to scalar value
(`dict(row)` in the script). -/
abbrev Record := List (String × Value)

/-- Key membership in the Python dict, `column in record`. -/
def Record.hasCol (r : Record) (k : String) : Bool :=
  r.any (fun p => p.1 == k)

/-- Column lookup, `record.get(column)`: the Python `dict.get` returns `None` when the key
is absent, which downstream helpers treat exactly like a stored NULL, so
absence is collapsed to `Value.null`. -/
def Record.get (r : Record) (k : String) : Value :=
  match r.find? (fun p => p.1 == k) with
  | some p => p.2
  | none => Value.null

/-- The characters that the Python `str.strip()` removes (ASCII whitespace; the
stdlib also strips rarer Unicode spaces, which the datasets here lack). -/
def isPySpace (c : Char) : Bool :=
  c = ' ' || c = '\t' || c = '\n' || c = '\r' || c = '\x0b' || c = '\x0c'

/-- Model of `text.strip()`. -/
def pyStrip (s : String) : String :=
  ⟨((s.data.dropWhile isPySpace).reverse.dropWhile isPySpace).reverse⟩

/-- Lowercasing of one character (ASCII; sufficient for the sentinel
comparison with `"unknown"`). -/
def asciiLower (c : Char) : Char :=
  if 'A' ≤ c && c ≤ 'Z' then Char.ofNat (c.toNat + 32) else c

/-- Model of `text.lower()`. -/
def pyLower (s : String) : String :=
  ⟨s.data.map asciiLower⟩

/-- Missing-value classification, `is_missing_value`: `None` is missing; a string is missing when it
strips to empty or case-insensitively equals `"unknown"`; every other
value is not missing. -/
def is_missing_value (v : Value) : Bool :=
  match v with
  | Value.null => true
  | Value.str s =>
      let stripped := pyStrip s
      if stripped.data.isEmpty then true
      else if pyLower stripped = "unknown" then true
      else false
  | _ => false

/-- The per-record taxonomy predicate of the loop in `taxonomy_validation`:
`is_missing_value(record.get("source")) or is_missing_value(record.get("medium"))`. -/
def taxMissing (r : Record) : Bool :=
  is_missing_value (r.get "source") || is_missing_value (r.get "medium")

/-- Taxonomy rule, `taxonomy_validation`: empty data gives `(0, [])`; if the first record
lacks the `source` key or the `medium` key the whole dataset is flagged with
the first five records as sample; otherwise the records whose source or
medium is a missing value are flagged. -/
def taxonomy_validation (data : List Record) : Nat × List Record :=
  match data with
  | [] => (0, [])
  | sample_record :: _ =>
      if ¬ sample_record.hasCol "source" ∨ ¬ sample_record.hasCol "medium" then
        (data.length, data.take 5)
      else
        let flagged := data.filter taxMissing
        (flagged.length, flagged)

/-! ### Numeric coercion (`coerce_float`) -/

/-- Value of a list of decimal digit characters. -/
def digitsVal (cs : List Char) : Nat :=
  cs.foldl (fun a c => a * 10 + (c.toNat - 48)) 0

/-- Model of the Python `float(text)` on a stripped string: optional sign,
decimal digits with optional fractional part, optional exponent.  The
stdlib also accepts `inf`/`nan` and underscore digit separators, which the
datasets considered here never contain. -/
def parseFloat (s : String) : Option ℚ :=
  let cs := s.data
  let (sgn, cs1) : ℚ × List Char :=
    match cs with
    | '+' :: rest => (1, rest)
    | '-' :: rest => (-1, rest)
    | _ => (1, cs)
  let intPart := cs1.takeWhile Char.isDigit
  let cs2 := cs1.dropWhile Char.isDigit
  let (fracPart, cs3) : List Char × List Char :=
    match cs2 with
    | '.' :: rest => (rest.takeWhile Char.isDigit, rest.dropWhile Char.isDigit)
    | _ => ([], cs2)
  if intPart.isEmpty && fracPart.isEmpty then none
  else
    let mant : ℚ := (digitsVal (intPart ++ fracPart) : ℚ) / (10 : ℚ) ^ fracPart.length
    match cs3 with
    | [] => some (sgn * mant)
    | e :: rest =>
        if e == 'e' || e == 'E' then
          let (esgn, rest1) : Int × List Char :=
            match rest with
            | '+' :: r => (1, r)
            | '-' :: r => (-1, r)
            | _ => (1, rest)
          let eds := rest1.takeWhile Char.isDigit
          let rest2 := rest1.dropWhile Char.isDigit
          if eds.isEmpty || !rest2.isEmpty then none
          else some (sgn * mant * (10 : ℚ) ^ (esgn * (digitsVal eds : Int)))
        else none

/-- Numeric coercion, `coerce_float`: `None` coerces to nothing, numbers coerce to themselves,
text is stripped and parsed as a float, empty text coerces to nothing. -/
def coerce_float (v : Value) : Option ℚ :=
  match v with
  | Value.null => none
  | Value.int n => some (n : ℚ)
  | Value.float q => some q
  | Value.str s =>
      let text := pyStrip s
      if text.data.isEmpty then none
      else parseFloat text

/-! ### Dates and `parse_date` -/

/-- Calendar date (Python `datetime.date`). -/
structure Date where
  year : Nat
  month : Nat
  day : Nat
deriving DecidableEq, Repr

def isLeapYear (y : Nat) : Bool :=
  (y % 4 == 0 && y % 100 != 0) || y % 400 == 0

def daysInMonth (y m : Nat) : Nat :=
  if m = 2 then (if isLeapYear y then 29 else 28)
  else if m = 4 ∨ m = 6 ∨ m = 9 ∨ m = 11 then 30
  else 31

/-- The field ranges `datetime.date(y, m, d)` accepts. -/
def validDate (y m d : Nat) : Bool :=
  1 ≤ y && y ≤ 9999 && 1 ≤ m && m ≤ 12 && 1 ≤ d && d ≤ daysInMonth y m

/-- Python compares dates lexicographically on (year, month, day). -/
def Date.lt (a b : Date) : Bool :=
  a.year < b.year ||
    (a.year == b.year &&
      (a.month < b.month || (a.month == b.month && a.day < b.day)))

/-- Day number of a date in the proleptic Gregorian calendar
(`days_from_civil`); differences of day numbers model
`(d1 - d2).days` on Python dates.  For the years 1–9999 the shifted year
is non-negative, so truncating `Int` division agrees with floor division. -/
def Date.toDays (dt : Date) : Int :=
  let y : Int := if dt.month ≤ 2 then (dt.year : Int) - 1 else (dt.year : Int)
  let era : Int := y / 400
  let yoe : Int := y - era * 400
  let mshift : Int := if 2 < dt.month then (dt.month : Int) - 3 else (dt.month : Int) + 9
  let doy : Int := (153 * mshift + 2) / 5 + (dt.day : Int) - 1
  let doe : Int := yoe * 365 + yoe / 4 - yoe / 100 + doy
  era * 146097 + doe - 719468

/-- Consume one expected character. -/
def expectChar (c : Char) : List Char → Option (List Char)
  | x :: rest => if x = c then some rest else none
  | [] => none

/-- Year field `%Y` in `strptime`: exactly four decimal digits. -/
def parseYear4 : List Char → Option (Nat × List Char)
  | a :: b :: c :: d :: rest =>
      if a.isDigit && b.isDigit && c.isDigit && d.isDigit then
        some (digitsVal [a, b, c, d], rest)
      else none
  | _ => none

/-- A one-or-two-digit `strptime` field whose two-digit values are capped at
`hi2` and whose one-digit values must be at least `lo1` (`%m`: 12 and 1,
`%d`: 31 and 1, `%H`: 23 and 0, `%M`/`%S`: 59 and 0).  The two-digit
alternative is preferred, matching the stdlib regular expressions. -/
def parseField2 (lo1 hi2 : Nat) : List Char → Option (Nat × List Char)
  | a :: b :: rest =>
      if a.isDigit && b.isDigit &&
          lo1 ≤ digitsVal [a, b] && digitsVal [a, b] ≤ hi2 then
        some (digitsVal [a, b], rest)
      else if a.isDigit && lo1 ≤ digitsVal [a] then
        some (digitsVal [a], b :: rest)
      else none
  | [a] =>
      if a.isDigit && lo1 ≤ digitsVal [a] then some (digitsVal [a], []) else none
  | [] => none

/-- Parser for `strptime` with format `%Y<sep>%m<sep>%d` (the whole string must be
consumed and the fields must form a valid date). -/
def fmtYmd (sep : Char) (cs : List Char) : Option Date := do
  let (y, cs) ← parseYear4 cs
  let cs ← expectChar sep cs
  let (m, cs) ← parseField2 1 12 cs
  let cs ← expectChar sep cs
  let (d, cs) ← parseField2 1 31 cs
  guard cs.isEmpty
  guard (validDate y m d)
  pure ⟨y, m, d⟩

/-- Parser for `strptime` with format `%m/%d/%Y`. -/
def fmtMdy (cs : List Char) : Option Date := do
  let (m, cs) ← parseField2 1 12 cs
  let cs ← expectChar '/' cs
  let (d, cs) ← parseField2 1 31 cs
  let cs ← expectChar '/' cs
  let (y, cs) ← parseYear4 cs
  guard cs.isEmpty
  guard (validDate y m d)
  pure ⟨y, m, d⟩

/-- Parser for `strptime` with format `%Y-%m-%d %H:%M:%S`; the time of day is validated
and then discarded by `.date()`. -/
def fmtYmdHms (cs : List Char) : Option Date := do
  let (y, cs) ← parseYear4 cs
  let cs ← expectChar '-' cs
  let (m, cs) ← parseField2 1 12 cs
  let cs ← expectChar '-' cs
  let (d, cs) ← parseField2 1 31 cs
  let cs ← expectChar ' ' cs
  let (_, cs) ← parseField2 0 23 cs
  let cs ← expectChar ':' cs
  let (_, cs) ← parseField2 0 59 cs
  let cs ← expectChar ':' cs
  let (_, cs) ← parseField2 0 59 cs
  guard cs.isEmpty
  guard (validDate y m d)
  pure ⟨y, m, d⟩

/-- Exactly two digits. -/
def parseTwoDigits : List Char → Option (Nat × List Char)
  | a :: b :: rest =>
      if a.isDigit && b.isDigit then some (digitsVal [a, b], rest) else none
  | _ => none

/-- Model of `datetime.fromisoformat(text).date()`, the generic
ISO-8601 fallback, restricted to the extended format `YYYY-MM-DD`
optionally followed by a separator and a time `HH:MM[:SS[.ffffff]]`; other
shapes the stdlib accepts (basic format, week dates, offsets) are not
produced by the data of this pipeline and are treated as failures. -/
def isoFracOk (cs : List Char) : Bool :=
  match cs with
  | [] => true
  | '.' :: rest =>
      let fs := rest.takeWhile Char.isDigit
      1 ≤ fs.length && fs.length ≤ 6 && (rest.dropWhile Char.isDigit).isEmpty
  | _ => false

def isoSecOk (cs : List Char) : Bool :=
  match cs with
  | [] => true
  | ':' :: rest =>
      match parseTwoDigits rest with
      | some (sec, rest1) => sec ≤ 59 && isoFracOk rest1
      | none => false
  | _ => false

def isoTimeOk (cs : List Char) : Bool :=
  match cs with
  | [] => true
  | sep :: rest =>
      if sep = 'T' ∨ sep = 't' ∨ sep = ' ' then
        match parseTwoDigits rest with
        | some (h, rest1) =>
            (h ≤ 23) &&
              (match expectChar ':' rest1 with
                | some rest2 =>
                    match parseTwoDigits rest2 with
                    | some (mi, rest3) => mi ≤ 59 && isoSecOk rest3
                    | none => false
                | none => false)
        | none => false
      else false

def isoFallback (cs : List Char) : Option Date := do
  let (y, cs) ← parseYear4 cs
  let cs ← expectChar '-' cs
  let (m, cs) ← parseTwoDigits cs
  let cs ← expectChar '-' cs
  let (d, cs) ← parseTwoDigits cs
  guard (validDate y m d)
  guard (isoTimeOk cs)
  pure ⟨y, m, d⟩

/-- Text branch of `parse_date`: try the four `strptime` formats in
order, then the ISO fallback; empty text fails outright. -/
def parseDateText (text : String) : Option Date :=
  if text.data.isEmpty then none
  else
    let cs := text.data
    fmtYmd '-' cs <|> fmtYmd '/' cs <|> fmtMdy cs <|> fmtYmdHms cs <|> isoFallback cs

/-- Model of the Python `str()` of a scalar, used when `parse_date` or the sampler
stringifies a non-string value.  Floats are idealised: an integral rational
prints like a Python float, others keep their exact fraction form (no
theorem below depends on this case). -/
def Value.pyStr : Value → String
  | Value.null => "None"
  | Value.str s => s
  | Value.int n => toString n
  | Value.float q => if q.den = 1 then toString q.num ++ ".0" else toString q

/-- Date parsing, `parse_date`: `None` is unparseable; any other value is stringified,
stripped, and run through the format list (records loaded from SQLite never
hold `datetime` objects, so the isinstance branches for them are vacuous). -/
def parse_date (v : Value) : Option Date :=
  match v with
  | Value.null => none
  | Value.str s => parseDateText (pyStrip s)
  | other => parseDateText (pyStrip other.pyStr)

/-! ### Outlier rule (`outlier_validation`) -/

def metrics : List String := ["spend", "impressions", "clicks", "conversions", "revenue"]

/-- The list `values_with_index` for one metric: the indexed records whose value for
the metric coerces to a number, in dataset order. -/
def metricPairs (data : List Record) (metric : String) : List (Nat × ℚ) :=
  data.enum.filterMap (fun p => (coerce_float (p.2.get metric)).map (fun v => (p.1, v)))

/-- Model of `statistics.mean`, exact over rationals. -/
def qmean (xs : List ℚ) : ℚ := xs.sum / xs.length

/-- Square of `statistics.pstdev`: population variance with divisor N.
`pstdev == 0` holds exactly when the variance is `0`, and
`abs((v - avg) / pstdev) >= 3` holds exactly when
`(v - avg)^2 >= 9 * variance`, so both tests are embedded square-free. -/
def pvariance (xs : List ℚ) : ℚ :=
  ((xs.map (fun x => (x - qmean xs) ^ 2)).sum) / xs.length

/-- The plain value list `values` of one metric. -/
def metricVals (data : List Record) (metric : String) : List ℚ :=
  (metricPairs data metric).map Prod.snd

/-- Whether the inner loop of `outlier_validation` adds index `i` to
`flagged_indices` while processing `metric`. -/
def metricFlagged (data : List Record) (metric : String) (i : Nat) : Bool :=
  let ps := metricPairs data metric
  if ps.length < 2 then false
  else
    let avg := qmean (metricVals data metric)
    let var := pvariance (metricVals data metric)
    if var = 0 then false
    else ps.any (fun p => p.1 == i && 9 * var ≤ (p.2 - avg) ^ 2)

/-- Outlier rule, `outlier_validation`: the Python code accumulates flagged indices into a
set across the five metrics and then materialises `sorted(flagged_indices)`;
that is exactly the ascending filter of `range(len(data))` by "some metric
flags this index". -/
def outlier_validation (data : List Record) : Nat × List Record :=
  if data.isEmpty then (0, [])
  else
    let flaggedIdx :=
      (List.range data.length).filter (fun i => metrics.any (fun m => metricFlagged data m i))
    let flagged := flaggedIdx.filterMap (fun i => data[i]?)
    (flagged.length, flagged)

/-! ### Latency rule (`latency_validation`) -/

/-- The indexed parseable dates of the `date` column, in dataset order. -/
def datedPairs (data : List Record) : List (Nat × Date) :=
  data.enum.filterMap (fun p => (parse_date (p.2.get "date")).map (fun d => (p.1, d)))

/-- One iteration of the latest-date loop: update on `parsed > latest_date`
(strict), so the first record attaining the maximum keeps its index. -/
def latestStep (acc : Option (Date × Nat)) (p : Nat × Date) : Option (Date × Nat) :=
  match acc with
  | none => some (p.2, p.1)
  | some (best, bi) => if Date.lt best p.2 then some (p.2, p.1) else some (best, bi)

/-- Latency rule, `latency_validation`, with `today` (the script reads
`datetime.now(timezone.utc).date()`) passed explicitly. -/
def latency_validation (today : Date) (data : List Record) : Nat × List Record :=
  match data with
  | [] => (1, [])
  | first :: _ =>
      if ¬ first.hasCol "date" then (1, data.take 1)
      else
        match (datedPairs data).foldl latestStep none with
        | none => (1, data.take 1)
        | some (latest, li) =>
            if 3 < today.toDays - latest.toDays then
              match data[li]? with
              | some r => (1, [r])
              | none => (1, [])
            else (0, [])

/-! ### Sampler and orchestrator -/

def preferred_id_cols : List String := ["campaign_id", "ad_id", "ad_group_id", "id"]

/-- Python `repr` of a scalar, for the dict-dump fallback (quote escaping in
strings is ignored; no theorem depends on this rendering). -/
def Value.pyRepr : Value → String
  | Value.null => "None"
  | Value.str s => "\x27" ++ s ++ "\x27"
  | Value.int n => toString n
  | Value.float q => (Value.float q).pyStr

/-- Model of the sorted dict dump, `str(\x7bk: record[k] for k in sorted(record.keys())\x7d)`. -/
def recordDump (record : Record) : String :=
  let keys := ((record.map Prod.fst).eraseDups).mergeSort (fun a b => a ≤ b)
  "\x7b" ++ String.intercalate ", "
      (keys.map (fun k => "\x27" ++ k ++ "\x27: " ++ (Record.get record k).pyRepr)) ++ "\x7d"

/-- The per-record part list built by `build_sample_rows`: preferred id
columns that are present and non-null, then the date if present and
non-null, else the sorted dict dump. -/
def sampleParts (record : Record) : List String :=
  let idParts := preferred_id_cols.filterMap (fun c =>
    if record.hasCol c ∧ Record.get record c ≠ Value.null then
      some (c ++ "=" ++ (Record.get record c).pyStr)
    else none)
  let dateParts :=
    if record.hasCol "date" ∧ Record.get record "date" ≠ Value.null then
      ["date=" ++ (Record.get record "date").pyStr]
    else []
  let parts := idParts ++ dateParts
  if parts.isEmpty then [recordDump record] else parts

/-- Sampler, `build_sample_rows(records, limit)` (the script always uses the default
`limit=5`). -/
def build_sample_rows (records : List Record) (limit : Nat) : String :=
  String.intercalate "; "
    ((records.take limit).map (fun r => String.intercalate "|" (sampleParts r)))

/-- One row of the findings CSV. -/
structure Finding where
  rule : String
  severity : String
  count : Nat
  sample_rows : String
  run_timestamp : String
deriving DecidableEq, Repr

/-- Outcome of `load_fact_campaigns`: success, `sqlite3.OperationalError`,
or any other exception (the two `except` clauses of `run_validations`). -/
inductive LoadResult where
  | ok : List Record → LoadResult
  | operationalError : String → LoadResult
  | otherError : String → LoadResult
deriving DecidableEq, Repr

/-- Orchestrator, `run_validations`, with the module constant `RUN_TIMESTAMP`, the current UTC
date and the load outcome passed explicitly.  `write_results` always
receives exactly the returned finding list, so the model returns the
written sequence together with the `critical_found` boolean. -/
def run_validations (runTimestamp : String) (today : Date) (load : LoadResult) :
    List Finding × Bool :=
  match load with
  | LoadResult.operationalError e =>
      ([⟨"fact_campaigns_table_access", "critical", 1, "Error: " ++ e, runTimestamp⟩], true)
  | LoadResult.otherError e =>
      ([⟨"fact_campaigns_load_failure", "critical", 1, "Error: " ++ e, runTimestamp⟩], true)
  | LoadResult.ok data =>
      let tax := taxonomy_validation data
      let taxFindings : List Finding :=
        if 0 < tax.1 then
          [⟨"missing_taxonomy", "critical", tax.1, build_sample_rows tax.2 5, runTimestamp⟩]
        else []
      let outl := outlier_validation data
      let outlFindings : List Finding :=
        if 0 < outl.1 then
          [⟨"zscore_outliers", "warning", outl.1, build_sample_rows outl.2 5, runTimestamp⟩]
        else []
      let lat := latency_validation today data
      let latSample :=
        if lat.2.isEmpty then "No recent data available" else build_sample_rows lat.2 5
      let latFindings : List Finding :=
        if 0 < lat.1 then
          [⟨"data_latency", "critical", lat.1, latSample, runTimestamp⟩]
        else []
      (taxFindings ++ outlFindings ++ latFindings,
        decide (0 < tax.1) || decide (0 < lat.1))

/-! ### Order facts about `Date.lt` -/

theorem Date.lt_irrefl (a : Date) : Date.lt a a = false := by
  simp [Date.lt]

theorem Date.lt_asymm {a b : Date} (h : Date.lt a b = true) : Date.lt b a = false := by
  cases a; cases b; simp [Date.lt] at h ⊢; omega

theorem Date.not_lt_antisymm {a b : Date} (h1 : Date.lt a b = false)
    (h2 : Date.lt b a = false) : a = b := by
  cases a; cases b; simp [Date.lt] at h1 h2; simp only [Date.mk.injEq]; omega

theorem Date.not_lt_trans {a b c : Date} (h1 : Date.lt a b = false)
    (h2 : Date.lt b c = false) : Date.lt a c = false := by
  cases a; cases b; cases c; simp [Date.lt] at h1 h2 ⊢; omega

theorem Date.lt_of_lt_of_not_lt {a b c : Date} (h1 : Date.lt a b = true)
    (h2 : Date.lt c b = false) : Date.lt a c = true := by
  cases a; cases b; cases c; simp [Date.lt] at h1 h2 ⊢; omega

/-! ### Membership and index order in the enumerated pair lists -/

theorem mem_metricPairs {data : List Record} {m : String} {i : Nat} {v : ℚ} :
    (i, v) ∈ metricPairs data m ↔
      ∃ r, data[i]? = some r ∧ coerce_float (r.get m) = some v := by
  constructor
  · intro h
    rcases List.mem_filterMap.mp h with ⟨⟨j, r⟩, hmem, hf⟩
    rcases Option.map_eq_some'.mp hf with ⟨w, hw, hpair⟩
    rcases Prod.mk.injEq .. ▸ hpair with ⟨rfl, rfl⟩
    exact ⟨r, List.mem_enum_iff_getElem?.mp hmem, hw⟩
  · rintro ⟨r, hr, hc⟩
    exact List.mem_filterMap.mpr
      ⟨(i, r), List.mem_enum_iff_getElem?.mpr hr, by simp [hc]⟩

theorem mem_datedPairs {data : List Record} {i : Nat} {d : Date} :
    (i, d) ∈ datedPairs data ↔
      ∃ r, data[i]? = some r ∧ parse_date (r.get "date") = some d := by
  constructor
  · intro h
    rcases List.mem_filterMap.mp h with ⟨⟨j, r⟩, hmem, hf⟩
    rcases Option.map_eq_some'.mp hf with ⟨w, hw, hpair⟩
    rcases Prod.mk.injEq .. ▸ hpair with ⟨rfl, rfl⟩
    exact ⟨r, List.mem_enum_iff_getElem?.mp hmem, hw⟩
  · rintro ⟨r, hr, hc⟩
    exact List.mem_filterMap.mpr
      ⟨(i, r), List.mem_enum_iff_getElem?.mpr hr, by simp [hc]⟩

theorem pairwise_fst_enum {α : Type _} (l : List α) :
    l.enum.Pairwise (fun p q => p.1 < q.1) := by
  rw [List.pairwise_iff_getElem]
  intro i j hi hj hij
  simp only [List.getElem_enum]
  simpa using hij

theorem pairwise_fst_enumMap {β : Type _} (l : List Record) (f : Record → Option β) :
    (l.enum.filterMap (fun p => (f p.2).map (fun d => (p.1, d)))).Pairwise
      (fun p q => p.1 < q.1) := by
  refine List.Pairwise.filterMap _ ?_ (pairwise_fst_enum l)
  rintro ⟨j, r⟩ ⟨k, s⟩ hjk b hb b' hb'
  simp only [Option.mem_def, Option.map_eq_some'] at hb hb'
  rcases hb with ⟨x, _, rfl⟩
  rcases hb' with ⟨y, _, rfl⟩
  exact hjk

theorem pairwise_fst_datedPairs (data : List Record) :
    (datedPairs data).Pairwise (fun p q => p.1 < q.1) :=
  pairwise_fst_enumMap data (fun r => parse_date (r.get "date"))

theorem pairwise_fst_metricPairs (data : List Record) (m : String) :
    (metricPairs data m).Pairwise (fun p q => p.1 < q.1) :=
  pairwise_fst_enumMap data (fun r => coerce_float (r.get m))

/-! ### Characterisation of the latest-date loop -/

/-- The pair `(i, d)` is, among the indexed dates `ps`, a maximal date
attained first: `d` occurs at index `i`, no date in `ps` exceeds `d`, and
any other occurrence of `d` has a larger index. -/
def IsLatestFirst (ps : List (Nat × Date)) (d : Date) (i : Nat) : Prop :=
  (i, d) ∈ ps ∧ (∀ q ∈ ps, Date.lt d q.2 = false) ∧ (∀ q ∈ ps, q.2 = d → i ≤ q.1)

theorem latestStep_foldl (ps : List (Nat × Date)) :
    ∀ ad : Date, ∀ ai : Nat,
      (∀ q ∈ ps, ai < q.1) →
      List.Pairwise (fun p q => p.1 < q.1) ps →
      ∃ b : Date × Nat, ps.foldl latestStep (some (ad, ai)) = some b ∧
        (b = (ad, ai) ∨ (b.2, b.1) ∈ ps) ∧
        Date.lt b.1 ad = false ∧
        (∀ q ∈ ps, Date.lt b.1 q.2 = false) ∧
        (ad = b.1 → b = (ad, ai)) ∧
        (∀ q ∈ ps, q.2 = b.1 → b.2 ≤ q.1) := by
  induction ps with
  | nil =>
      intro ad ai _ _
      exact ⟨(ad, ai), rfl, Or.inl rfl, Date.lt_irrefl ad, by simp, fun _ => rfl, by simp⟩
  | cons p ps ih =>
      intro ad ai hidx hpw
      obtain ⟨hpwhead, hpwtail⟩ := List.pairwise_cons.mp hpw
      cases hlt : Date.lt ad p.2 with
      | true =>
          have step : latestStep (some (ad, ai)) p = some (p.2, p.1) := by
            simp [latestStep, hlt]
          obtain ⟨b, hfold, hbmem, hble, hmax, htie0, htie⟩ :=
            ih p.2 p.1 (fun q hq => hpwhead q hq) hpwtail
          refine ⟨b, ?_, ?_, ?_, ?_, ?_, ?_⟩
          · simpa [step] using hfold
          · rcases hbmem with h | h
            · exact Or.inr (List.mem_cons.mpr (Or.inl (by simp [h])))
            · exact Or.inr (List.mem_cons.mpr (Or.inr h))
          · exact Date.lt_asymm (Date.lt_of_lt_of_not_lt hlt hble)
          · intro q hq
            rcases List.mem_cons.mp hq with rfl | hq'
            · exact hble
            · exact hmax q hq'
          · intro had
            have hx : Date.lt ad b.1 = true := Date.lt_of_lt_of_not_lt hlt hble
            have : Date.lt b.1 b.1 = true := had ▸ hx
            rw [Date.lt_irrefl] at this
            exact absurd this (by simp)
          · intro q hq hq2
            rcases List.mem_cons.mp hq with rfl | hq'
            · have hb := htie0 hq2
              have : b.2 = q.1 := by rw [hb]
              omega
            · exact htie q hq' hq2
      | false =>
          have step : latestStep (some (ad, ai)) p = some (ad, ai) := by
            simp [latestStep, hlt]
          obtain ⟨b, hfold, hbmem, hble, hmax, htie0, htie⟩ :=
            ih ad ai (fun q hq => hidx q (List.mem_cons.mpr (Or.inr hq))) hpwtail
          refine ⟨b, ?_, ?_, ?_, ?_, ?_, ?_⟩
          · simpa [step] using hfold
          · rcases hbmem with h | h
            · exact Or.inl h
            · exact Or.inr (List.mem_cons.mpr (Or.inr h))
          · exact hble
          · intro q hq
            rcases List.mem_cons.mp hq with rfl | hq'
            · exact Date.not_lt_trans hble hlt
            · exact hmax q hq'
          · exact htie0
          · intro q hq hq2
            rcases List.mem_cons.mp hq with rfl | hq'
            · have heq : b.1 = ad :=
                Date.not_lt_antisymm hble (hq2 ▸ Date.not_lt_trans hlt (by rw [hq2]; exact Date.lt_irrefl _))
              have hb := htie0 heq.symm
              have : b.2 = ai := by rw [hb]
              have := hidx q (List.mem_cons.mpr (Or.inl rfl))
              omega
            · exact htie q hq' hq2

theorem latest_foldl_spec (ps : List (Nat × Date)) (hne : ps ≠ [])
    (hpw : List.Pairwise (fun p q => p.1 < q.1) ps) :
    ∃ d i, ps.foldl latestStep none = some (d, i) ∧ IsLatestFirst ps d i := by
  cases ps with
  | nil => exact absurd rfl hne
  | cons p ps =>
      obtain ⟨hpwhead, hpwtail⟩ := List.pairwise_cons.mp hpw
      obtain ⟨⟨bd, bi⟩, hfold, hbmem, hble, hmax, htie0, htie⟩ :=
        latestStep_foldl ps p.2 p.1 (fun q hq => hpwhead q hq) hpwtail
      refine ⟨bd, bi, ?_, ?_, ?_, ?_⟩
      · have : (p :: ps).foldl latestStep none = ps.foldl latestStep (some (p.2, p.1)) := by
          simp [latestStep]
        rw [this, hfold]
      · rcases hbmem with h | h
        · rcases Prod.mk.injEq .. ▸ h with ⟨rfl, rfl⟩
          exact List.mem_cons.mpr (Or.inl rfl)
        · exact List.mem_cons.mpr (Or.inr h)
      · intro q hq
        rcases List.mem_cons.mp hq with rfl | hq'
        · exact hble
        · exact hmax q hq'
      · intro q hq hq2
        rcases List.mem_cons.mp hq with rfl | hq'
        · have hb := htie0 hq2
          have h1 : bi = q.1 := congrArg Prod.snd hb
          omega
        · exact htie q hq' hq2

/-! ### Spec-level predicates and their agreement with the code -/

/-- Missing-value classification as the spec words it: null/absent, text
that strips to empty, or text case-insensitively equal to the sentinel
value unknown. -/
def isMissingSpec : Value → Prop
  | Value.null => True
  | Value.str s => pyStrip s = "" ∨ pyLower (pyStrip s) = "unknown"
  | Value.int _ => False
  | Value.float _ => False

instance decIsMissingSpec : DecidablePred isMissingSpec := fun v => by
  cases v <;> simp only [isMissingSpec] <;> infer_instance

theorem string_eq_empty_iff {s : String} : s = "" ↔ s.data = [] := by
  constructor
  · rintro rfl; rfl
  · intro h; cases s; simp_all

theorem is_missing_value_iff (v : Value) :
    is_missing_value v = true ↔ isMissingSpec v := by
  cases v with
  | null => simp [is_missing_value, isMissingSpec]
  | str s =>
      simp only [is_missing_value, isMissingSpec]
      by_cases h1 : (pyStrip s).data.isEmpty
      · simp only [h1, if_true]
        simp only [true_iff]
        exact Or.inl (string_eq_empty_iff.mpr (List.isEmpty_iff.mp h1))
      · by_cases h2 : pyLower (pyStrip s) = "unknown"
        · simp [h1, h2]
        · simp only [h1, h2, if_false, Bool.false_eq_true, false_iff]
          rintro (h | h)
          · exact h1 (List.isEmpty_iff.mpr (string_eq_empty_iff.mp h))
          · exact h.elim
  | int n => simp [is_missing_value, isMissingSpec]
  | float q => simp [is_missing_value, isMissingSpec]

/-- Taxonomy flag of one record as the spec words it: source or medium is
a missing value. -/
def specTaxFlag (r : Record) : Prop :=
  isMissingSpec (r.get "source") ∨ isMissingSpec (r.get "medium")

instance decSpecTaxFlag : DecidablePred specTaxFlag := fun _ =>
  inferInstanceAs (Decidable (_ ∨ _))

theorem taxMissing_iff (r : Record) : taxMissing r = true ↔ specTaxFlag r := by
  simp [taxMissing, specTaxFlag, is_missing_value_iff]

theorem pvariance_nonneg (xs : List ℚ) : 0 ≤ pvariance xs := by
  unfold pvariance
  apply div_nonneg
  · apply List.sum_nonneg
    intro x hx
    rcases List.mem_map.mp hx with ⟨y, _, rfl⟩
    positivity
  · exact Nat.cast_nonneg _

/-- Over the reals, the z-score test of the script is equivalent to the
square-free comparison used in the embedding: for positive variance,
`abs((v - mean) / sqrt(var)) >= 3` holds exactly when
`9 * var <= (v - mean)^2`. -/
theorem zscore_bridge {v μ σ2 : ℚ} (hσ : 0 < σ2) :
    (9 * σ2 ≤ (v - μ) ^ 2) ↔
      (3 ≤ |(v : ℝ) - (μ : ℝ)| / Real.sqrt ((σ2 : ℝ))) := by
  have hσR : (0 : ℝ) < (σ2 : ℝ) := by exact_mod_cast hσ
  have hs : (0 : ℝ) < Real.sqrt ((σ2 : ℝ)) := Real.sqrt_pos.mpr hσR
  rw [le_div_iff hs]
  have h1 : ((3 : ℝ) * Real.sqrt σ2 ≤ |(v : ℝ) - (μ : ℝ)|) ↔
      (((3 : ℝ) * Real.sqrt σ2) ^ 2 ≤ |(v : ℝ) - (μ : ℝ)| ^ 2) :=
    (pow_le_pow_iff_left (by positivity) (abs_nonneg _) (by norm_num)).symm
  rw [h1]
  have h2 : ((3 : ℝ) * Real.sqrt σ2) ^ 2 = 9 * (σ2 : ℝ) := by
    rw [mul_pow, Real.sq_sqrt hσR.le]; norm_num
  rw [h2, sq_abs]
  constructor
  · intro h; exact_mod_cast h
  · intro h; exact_mod_cast h

/-- Spec condition under which record `i` is flagged for `metric`: at least
two coercible records, nonzero population standard deviation, and the
coerced value of record `i` has z-score of absolute value at least 3. -/
def specMetricFlag (data : List Record) (metric : String) (i : Nat) : Prop :=
  2 ≤ (metricPairs data metric).length ∧
  Real.sqrt ((pvariance (metricVals data metric) : ℝ)) ≠ 0 ∧
  ∃ r v, data[i]? = some r ∧ coerce_float (r.get metric) = some v ∧
    3 ≤ |(v : ℝ) - ((qmean (metricVals data metric) : ℝ))| /
      Real.sqrt ((pvariance (metricVals data metric) : ℝ))

theorem metricFlagged_iff {data : List Record} {m : String} {i : Nat} :
    metricFlagged data m i = true ↔ specMetricFlag data m i := by
  unfold metricFlagged specMetricFlag
  by_cases hlen : (metricPairs data m).length < 2
  · simp only [hlen, if_true, Bool.false_eq_true, false_iff]
    rintro ⟨h2, _⟩
    omega
  · by_cases hvar : pvariance (metricVals data m) = 0
    · simp only [hlen, if_false, hvar, if_true, Bool.false_eq_true, false_iff]
      rintro ⟨_, hsq, _⟩
      exact hsq (by simp)
    · have hpos : 0 < pvariance (metricVals data m) :=
        lt_of_le_of_ne (pvariance_nonneg _) (Ne.symm hvar)
      have hsqrt : Real.sqrt ((pvariance (metricVals data m) : ℝ)) ≠ 0 := by
        rw [Ne, Real.sqrt_eq_zero']
        push_neg
        exact_mod_cast hpos
      simp only [hlen, hvar, if_false]
      rw [List.any_eq_true]
      constructor
      · rintro ⟨p, hp, hcond⟩
        rw [Bool.and_eq_true, beq_iff_eq, decide_eq_true_iff] at hcond
        obtain ⟨hpi, hple⟩ := hcond
        obtain ⟨r, hr, hc⟩ := mem_metricPairs.mp (show (i, p.2) ∈ metricPairs data m by
          rw [← hpi]; exact hp)
        exact ⟨by omega, hsqrt, r, p.2, hr, hc, (zscore_bridge hpos).mp hple⟩
      · rintro ⟨h2, _, r, v, hr, hc, hz⟩
        refine ⟨(i, v), mem_metricPairs.mpr ⟨r, hr, hc⟩, ?_⟩
        rw [Bool.and_eq_true, beq_iff_eq, decide_eq_true_iff]
        exact ⟨rfl, (zscore_bridge hpos).mpr hz⟩

theorem outlier_validation_eq (data : List Record) :
    outlier_validation data =
      ((((List.range data.length).filter
          (fun i => metrics.any (fun m => metricFlagged data m i))).filterMap
          (fun i => data[i]?)).length,
        ((List.range data.length).filter
          (fun i => metrics.any (fun m => metricFlagged data m i))).filterMap
          (fun i => data[i]?)) := by
  cases data with
  | nil => rfl
  | cons r data => rfl

/-! ### Claim theorems -/

/-- C3: for every dataset, the outlier rule returns a count equal to the
number of returned records; the returned records are exactly those whose
index is flagged by some of the five metrics per the spec (at least two
coercible records for the metric, nonzero population standard deviation,
absolute z-score at least 3), listed by ascending original index with each
flagged index contributing exactly once; and a record with no coercible
value for a metric never enters that metric and is never flagged by it. -/
theorem outlier_rule_characterization (data : List Record) :
    (outlier_validation data).1 = (outlier_validation data).2.length ∧
    ∃ idxs : List Nat,
      List.Sorted (fun i j => i < j) idxs ∧
      (∀ i, i ∈ idxs ↔ ∃ m ∈ metrics, specMetricFlag data m i) ∧
      (∀ i ∈ idxs, i < data.length) ∧
      (outlier_validation data).2 = idxs.filterMap (fun i => data[i]?) ∧
      (∀ m i, specMetricFlag data m i →
        ∃ r v, data[i]? = some r ∧ coerce_float (r.get m) = some v) := by
  rw [outlier_validation_eq]
  refine ⟨rfl, (List.range data.length).filter
      (fun i => metrics.any (fun m => metricFlagged data m i)), ?_, ?_, ?_, rfl, ?_⟩
  · exact (List.sorted_lt_range _).filter _
  · intro i
    rw [List.mem_filter, List.mem_range, List.any_eq_true]
    constructor
    · rintro ⟨_, m, hm, hflag⟩
      exact ⟨m, hm, metricFlagged_iff.mp hflag⟩
    · rintro ⟨m, hm, hspec⟩
      have hi : i < data.length := by
        obtain ⟨_, _, r, v, hr, _⟩ := hspec
        exact (List.getElem?_eq_some.mp hr).1
      exact ⟨hi, m, hm, metricFlagged_iff.mpr hspec⟩
  · intro i hi
    rw [List.mem_filter, List.mem_range] at hi
    exact hi.1
  · rintro m i ⟨_, _, r, v, hr, hc, _⟩
    exact ⟨r, v, hr, hc⟩

/-! ### Demonstration records for concrete claims -/

def recMediumOnly : Record := [("medium", Value.str "cpc")]

def recFull : Record := [("source", Value.str "google"), ("medium", Value.str "cpc")]

def recEmptySource : Record := [("source", Value.str ""), ("medium", Value.str "email")]

def recUnknownSource : Record := [("source", Value.str "unknown"), ("medium", Value.str "cpc")]

def recNoDate : Record := [("x", Value.int 1)]

def recJan10 : Record := [("date", Value.str "2024-01-10")]

def recJan15 : Record := [("date", Value.str "2024-01-15")]

def recBadDate : Record := [("date", Value.str "not-a-date")]

def recNumeric : Record := [("source", Value.int 0), ("medium", Value.float 0)]

/-- C1 (amended): the structural treat-all branch fires for every non-empty
dataset whose first record lacks the source column or lacks the medium
column — in particular for every dataset lacking both columns entirely —
returning the dataset size as count with the first five records as sample;
the empty dataset yields count 0 with no records. -/
theorem taxonomy_structural_branch (first : Record) (rest : List Record)
    (h : first.hasCol "source" = false ∨ first.hasCol "medium" = false) :
    taxonomy_validation (first :: rest) =
      ((first :: rest).length, (first :: rest).take 5) ∧
    taxonomy_validation [] = (0, []) := by
  refine ⟨?_, rfl⟩
  rcases h with h | h <;> simp [taxonomy_validation, h]

theorem taxonomy_structural_branch_witness :
    taxonomy_validation (recMediumOnly :: List.replicate 5 recFull) =
      ((recMediumOnly :: List.replicate 5 recFull).length,
        (recMediumOnly :: List.replicate 5 recFull).take 5) ∧
    taxonomy_validation [] = (0, []) :=
  taxonomy_structural_branch recMediumOnly (List.replicate 5 recFull)
    (Or.inl (by decide))

/-- C1 counterexample: in the dataset of `recMediumOnly` and `recFull` the
medium column is present everywhere and the source column is present in
the second record, so by the claim the structural branch must not be taken
and only the record with missing source should be flagged; the code still
flags the entire dataset (count 2) because the first record alone lacks
the source key. -/
theorem taxonomy_structural_branch_counterexample :
    Record.hasCol recMediumOnly "medium" = true ∧
    Record.hasCol recFull "source" = true ∧
    is_missing_value (Record.get recFull "source") = false ∧
    is_missing_value (Record.get recFull "medium") = false ∧
    List.filter taxMissing [recMediumOnly, recFull] = [recMediumOnly] ∧
    taxonomy_validation [recMediumOnly, recFull] = (2, [recMediumOnly, recFull]) := by
  decide

/-- C2 (amended): the latency rule returns count 1 with empty sample on the
empty dataset; count 1 with the first record as sample when the first
record lacks the date column; and count 1 with the first record as sample —
not an empty sample — when the date column is present but every date value
is unparseable or missing. -/
theorem latency_structural_cases (today : Date) (first : Record) (rest : List Record) :
    latency_validation today [] = (1, []) ∧
    (first.hasCol "date" = false →
      latency_validation today (first :: rest) = (1, [first])) ∧
    (first.hasCol "date" = true →
      (∀ r ∈ first :: rest, parse_date (r.get "date") = none) →
      latency_validation today (first :: rest) = (1, [first])) := by
  refine ⟨rfl, ?_, ?_⟩
  · intro h
    simp [latency_validation, h]
  · intro hcol hall
    have hdp : datedPairs (first :: rest) = [] := by
      rw [datedPairs, List.filterMap_eq_nil_iff]
      rintro ⟨j, r⟩ hmem
      have hr : r ∈ first :: rest := by
        have hj := List.mem_enum_iff_getElem?.mp hmem
        exact List.getElem?_mem hj
      rw [hall r hr]
      rfl
    simp [latency_validation, hcol, hdp]

theorem latency_structural_cases_witness :
    latency_validation ⟨2024, 1, 15⟩ [] = (1, []) ∧
    latency_validation ⟨2024, 1, 15⟩ [recNoDate] = (1, [recNoDate]) ∧
    latency_validation ⟨2024, 1, 15⟩ [recBadDate] = (1, [recBadDate]) :=
  ⟨(latency_structural_cases ⟨2024, 1, 15⟩ recNoDate []).1,
   (latency_structural_cases ⟨2024, 1, 15⟩ recNoDate []).2.1 (by decide),
   (latency_structural_cases ⟨2024, 1, 15⟩ recBadDate []).2.2 (by decide) (by decide)⟩

/-- C2 counterexample: for a dataset with a date column whose only value is
unparseable, the claim asks for an empty sample, but the code returns the
first record as sample. -/
theorem latency_unparseable_sample_counterexample :
    Record.hasCol recBadDate "date" = true ∧
    parse_date (Record.get recBadDate "date") = none ∧
    latency_validation ⟨2024, 1, 15⟩ [recBadDate] = (1, [recBadDate]) ∧
    (latency_validation ⟨2024, 1, 15⟩ [recBadDate]).2 ≠ [] := by
  decide

/-- C4 (amended): for a dataset whose first record has the date column and
that contains at least one parseable date, the latency rule determines the
maximal parsed date together with the first record attaining it in dataset
order, and returns count 1 with exactly that record as sample when today
minus that date exceeds 3 days, and count 0 with no records otherwise;
unparseable and missing dates are ignored throughout. -/
theorem latency_gap_rule (today : Date) (first : Record) (rest : List Record)
    (hcol : first.hasCol "date" = true)
    (hne : datedPairs (first :: rest) ≠ []) :
    ∃ d i r, IsLatestFirst (datedPairs (first :: rest)) d i ∧
      (first :: rest)[i]? = some r ∧
      latency_validation today (first :: rest) =
        (if 3 < today.toDays - d.toDays then (1, [r]) else (0, [])) := by
  obtain ⟨d, i, hfold, hlf⟩ :=
    latest_foldl_spec (datedPairs (first :: rest)) hne (pairwise_fst_datedPairs _)
  obtain ⟨r, hr, -⟩ := mem_datedPairs.mp hlf.1
  refine ⟨d, i, r, hlf, hr, ?_⟩
  simp [latency_validation, hcol, hfold, hr]

theorem latency_gap_rule_witness :
    ∃ d i r, IsLatestFirst (datedPairs [recJan10, recJan15]) d i ∧
      [recJan10, recJan15][i]? = some r ∧
      latency_validation ⟨2024, 1, 20⟩ [recJan10, recJan15] =
        (if 3 < Date.toDays ⟨2024, 1, 20⟩ - Date.toDays d then (1, [r]) else (0, [])) :=
  latency_gap_rule ⟨2024, 1, 20⟩ recJan10 [recJan15] (by decide) (by decide)

/-- C4 counterexample: the dataset of `recNoDate` and `recJan15` contains
the parseable date 2024-01-15, and with today equal to that date the gap
is 0 days, so the claim asks for count 0; the code returns count 1 with the
first record as sample because the first record lacks the date key. -/
theorem latency_gap_rule_counterexample :
    parse_date (Record.get recJan15 "date") = some ⟨2024, 1, 15⟩ ∧
    Date.toDays ⟨2024, 1, 15⟩ - Date.toDays ⟨2024, 1, 15⟩ ≤ 3 ∧
    latency_validation ⟨2024, 1, 15⟩ [recNoDate, recJan15] = (1, [recNoDate]) := by
  decide

/-- C5: when every record has both taxonomy columns, the flagged records
are exactly those whose source or medium is a missing value in the spec
sense (null, text stripping to empty, or text case-insensitively equal to
unknown), the count is their number, and the three concrete records of the
spec behave as stated: empty source and sentinel source are flagged, the
clean record is not. -/
theorem taxonomy_flags_missing (data : List Record)
    (h : ∀ r ∈ data, r.hasCol "source" = true ∧ r.hasCol "medium" = true) :
    (taxonomy_validation data).2 = data.filter (fun r => decide (specTaxFlag r)) ∧
    (taxonomy_validation data).1 =
      (data.filter (fun r => decide (specTaxFlag r))).length ∧
    taxonomy_validation [recEmptySource, recUnknownSource, recFull] =
      (2, [recEmptySource, recUnknownSource]) := by
  have hfilter : data.filter taxMissing = data.filter (fun r => decide (specTaxFlag r)) := by
    apply List.filter_congr
    intro r _
    rw [Bool.eq_iff_iff, decide_eq_true_iff]
    exact taxMissing_iff r
  cases data with
  | nil => exact ⟨rfl, rfl, by decide⟩
  | cons first rest =>
      have h1 := (h first (List.mem_cons_self _ _)).1
      have h2 := (h first (List.mem_cons_self _ _)).2
      refine ⟨?_, ?_, by decide⟩
      · simp only [taxonomy_validation, h1, h2]
        simpa using hfilter
      · simp only [taxonomy_validation, h1, h2]
        simpa using congrArg List.length hfilter

theorem taxonomy_flags_missing_witness :
    (∀ r ∈ [recUnknownSource, recFull],
      r.hasCol "source" = true ∧ r.hasCol "medium" = true) ∧
    (taxonomy_validation [recUnknownSource, recFull]).2 =
      List.filter (fun r => decide (specTaxFlag r)) [recUnknownSource, recFull] :=
  ⟨by decide, (taxonomy_flags_missing [recUnknownSource, recFull] (by decide)).1⟩

/-- C6: the four example texts parse to the calendar date 2024-01-15 under
the ordered format list of `parse_date`, and the garbage text is
unparseable. -/
theorem parse_date_formats :
    parse_date (Value.str "2024-01-15") = some ⟨2024, 1, 15⟩ ∧
    parse_date (Value.str "2024/01/15") = some ⟨2024, 1, 15⟩ ∧
    parse_date (Value.str "01/15/2024") = some ⟨2024, 1, 15⟩ ∧
    parse_date (Value.str "2024-01-15 00:00:00") = some ⟨2024, 1, 15⟩ ∧
    parse_date (Value.str "not-a-date") = none := by
  decide

/-- C7: when loading fails — with either exception class — the
orchestrator emits exactly one finding, of critical severity, whose sample
text describes the error, evaluates none of the three rules, hands exactly
that one-element sequence to the report sink, and returns true. -/
theorem load_failure_single_critical (runTs : String) (today : Date) (e : String) :
    run_validations runTs today (LoadResult.operationalError e) =
      ([⟨"fact_campaigns_table_access", "critical", 1, "Error: " ++ e, runTs⟩], true) ∧
    run_validations runTs today (LoadResult.otherError e) =
      ([⟨"fact_campaigns_load_failure", "critical", 1, "Error: " ++ e, runTs⟩], true) :=
  ⟨rfl, rfl⟩

/-- C8: the boolean returned by the orchestrator is true exactly when some
emitted finding has critical severity; in particular it is false when no
finding is emitted and false when only the warning-severity outlier
finding is emitted. -/
theorem critical_flag_iff (runTs : String) (today : Date) (load : LoadResult) :
    (run_validations runTs today load).2 = true ↔
      ∃ f ∈ (run_validations runTs today load).1, f.severity = "critical" := by
  cases load with
  | operationalError e => simp [run_validations]
  | otherError e => simp [run_validations]
  | ok data =>
      by_cases h1 : 0 < (taxonomy_validation data).1 <;>
        by_cases h2 : 0 < (outlier_validation data).1 <;>
          by_cases h3 : 0 < (latency_validation today data).1 <;>
            simp [run_validations, h1, h2, h3]

/-- C9: every finding emitted in a run has a positive count — a rule that
found nothing emits no finding — and carries the run timestamp of that
run. -/
theorem findings_positive_and_timestamped (runTs : String) (today : Date)
    (load : LoadResult) (f : Finding)
    (hf : f ∈ (run_validations runTs today load).1) :
    0 < f.count ∧ f.run_timestamp = runTs := by
  cases load with
  | operationalError e =>
      simp only [run_validations, List.mem_singleton] at hf
      subst hf
      exact ⟨Nat.one_pos, rfl⟩
  | otherError e =>
      simp only [run_validations, List.mem_singleton] at hf
      subst hf
      exact ⟨Nat.one_pos, rfl⟩
  | ok data =>
      simp only [run_validations, List.mem_append] at hf
      rcases hf with (hf | hf) | hf
      · split at hf
        next h => rw [List.mem_singleton] at hf; subst hf; exact ⟨h, rfl⟩
        next => exact absurd hf (List.not_mem_nil f)
      · split at hf
        next h => rw [List.mem_singleton] at hf; subst hf; exact ⟨h, rfl⟩
        next => exact absurd hf (List.not_mem_nil f)
      · split at hf
        next h => rw [List.mem_singleton] at hf; subst hf; exact ⟨h, rfl⟩
        next => exact absurd hf (List.not_mem_nil f)

theorem findings_positive_and_timestamped_witness :
    0 < (Finding.mk "fact_campaigns_table_access" "critical" 1 "Error: x" "T").count ∧
    (Finding.mk "fact_campaigns_table_access" "critical" 1 "Error: x" "T").run_timestamp
      = "T" :=
  findings_positive_and_timestamped "T" ⟨2024, 1, 1⟩ (LoadResult.operationalError "x")
    ⟨"fact_campaigns_table_access", "critical", 1, "Error: x", "T"⟩ (by decide)

/-- Values that are neither null nor text (the numeric scalars of the
model). -/
def isNonNullNonText : Value → Prop
  | Value.int _ => True
  | Value.float _ => True
  | _ => False

/-- C10: `is_missing_value` is false on every non-null non-text value, so
with both taxonomy columns present a record whose source and medium are
such scalars is never flagged. -/
theorem nonnull_nontext_not_missing (first : Record) (rest : List Record) (r : Record)
    (hs : first.hasCol "source" = true) (hm : first.hasCol "medium" = true)
    (hr : r ∈ first :: rest)
    (h1 : isNonNullNonText (r.get "source")) (h2 : isNonNullNonText (r.get "medium")) :
    (∀ v, isNonNullNonText v → is_missing_value v = false) ∧
    r ∉ (taxonomy_validation (first :: rest)).2 := by
  have hval : ∀ v, isNonNullNonText v → is_missing_value v = false := by
    intro v hv
    cases v with
    | null => exact hv.elim
    | str s => exact hv.elim
    | int n => rfl
    | float q => rfl
  refine ⟨hval, ?_⟩
  simp only [taxonomy_validation, hs, hm, not_true, or_self, if_false]
  intro hmem
  rw [List.mem_filter] at hmem
  have htm : taxMissing r = true := hmem.2
  rw [taxMissing, hval _ h1, hval _ h2] at htm
  simp at htm

theorem nonnull_nontext_not_missing_witness :
    (∀ v, isNonNullNonText v → is_missing_value v = false) ∧
    recNumeric ∉ (taxonomy_validation [recNumeric]).2 :=
  nonnull_nontext_not_missing recNumeric [] recNumeric (by decide) (by decide)
    (List.mem_cons_self _ _) trivial trivial

end DataValidation
